import Mathlib

/-!
Shallow embedding of the Magni CSPR vault frontend arithmetic
(`casper/frontend/src/utils/amounts.ts` and `casper/frontend/src/App.tsx`)
together with theorems settling the specification claims about it.

All amounts are non-negative ECMAScript bigints in the source, embedded as
`Nat`; bigint `/` on non-negative operands is `Nat` division (truncation
toward zero), and bigint `*`, `+`, `-` on results that stay non-negative
agree with `Nat` arithmetic.
-/

/-- MOTES_DECIMALS in amounts.ts. -/
def MOTES_DECIMALS : Nat := 9

/-- ONE_CSPR = 10^MOTES_DECIMALS motes in amounts.ts. -/
def ONE_CSPR : Nat := 10 ^ MOTES_DECIMALS

/-- MOTES_TO_WAD = 10^9 in amounts.ts, the motes-to-wad conversion factor. -/
def MOTES_TO_WAD : Nat := 10 ^ 9

/-- LTV_MAX_BPS = 8000 (80%) in App.tsx line 51. -/
def LTV_MAX_BPS : Nat := 8000

/-- BPS_DIVISOR = 10000 in App.tsx line 52. -/
def BPS_DIVISOR : Nat := 10000

/-- MIN_DEPOSIT_MOTES = 500 * ONE_CSPR in App.tsx lines 47-48. -/
def MIN_DEPOSIT_MOTES : Nat := 500 * ONE_CSPR

/-- csprToWad in amounts.ts lines 49-51 and App.tsx lines 154-156:
`return motes * MOTES_TO_WAD`. -/
def csprToWad (motes : Nat) : Nat := motes * MOTES_TO_WAD

/-- wadToMotes in amounts.ts lines 53-55 and App.tsx lines 158-160:
`return wad / MOTES_TO_WAD` (bigint division truncates). -/
def wadToMotes (wad : Nat) : Nat := wad / MOTES_TO_WAD

/-- App.tsx line 1190: `const collateralWad = csprToWad(collateralMotes)`. -/
def collateralWad (collateralMotes : Nat) : Nat := csprToWad collateralMotes

/-- App.tsx line 1191:
`const maxBorrowWad = (collateralWad * LTV_MAX_BPS) / BPS_DIVISOR`. -/
def maxBorrowWad (collateralMotes : Nat) : Nat :=
  collateralWad collateralMotes * LTV_MAX_BPS / BPS_DIVISOR

/-- App.tsx line 1192: `const availableToBorrow =
maxBorrowWad > debtWad ? maxBorrowWad - debtWad : BigInt(0)`. -/
def availableToBorrow (collateralMotes debtWad : Nat) : Nat :=
  if maxBorrowWad collateralMotes > debtWad
  then maxBorrowWad collateralMotes - debtWad else 0

/-- App.tsx line 1195: `const minCollateralWad =
debtWad > 0n ? (debtWad * BPS_DIVISOR) / LTV_MAX_BPS : 0n`. -/
def minCollateralWad (debtWad : Nat) : Nat :=
  if debtWad > 0 then debtWad * BPS_DIVISOR / LTV_MAX_BPS else 0

/-- App.tsx line 1196: `const maxWithdrawWad =
collateralWad > minCollateralWad ? collateralWad - minCollateralWad : 0n`. -/
def maxWithdrawWad (collateralMotes debtWad : Nat) : Nat :=
  if collateralWad collateralMotes > minCollateralWad debtWad
  then collateralWad collateralMotes - minCollateralWad debtWad else 0

/-- App.tsx line 1197:
`const maxWithdrawMotes = wadToMotes(maxWithdrawWad)`. -/
def maxWithdrawMotes (collateralMotes debtWad : Nat) : Nat :=
  wadToMotes (maxWithdrawWad collateralMotes debtWad)

/-- Modelled from the spec: `min_collateral_for_debt(debt_wad)` =
`ceil(debt_wad * BPS_DIVISOR / LTV_MAX_BPS)` in wad. Stated only for
comparison with the frontend's `minCollateralWad`, which the spec claim
describes. -/
def specMinCollateralWad (debtWad : Nat) : Nat :=
  (debtWad * BPS_DIVISOR + (LTV_MAX_BPS - 1)) / LTV_MAX_BPS

/-- Largest value of the contract's wad integer type (U256). -/
def U256_MAX : Nat := 2 ^ 256 - 1

/-- Modelled from the spec: `motes_to_wad(m)`: exact multiplication by 10^9;
fails with `Overflow` if the result exceeds the wad integer type. Stated only
for comparison with the frontend's `csprToWad`, which the spec claim
describes. -/
def specMotesToWad (motes : Nat) : Option Nat :=
  if motes * MOTES_TO_WAD ≤ U256_MAX then some (motes * MOTES_TO_WAD) else none

/-- handleRepay in App.tsx lines 1875-1897, reduced to its data flow:
`repayMotes` is the parsed repay amount in motes; if it is zero the handler
reports an error and sends no deploy (`none`); otherwise
`repayWadAmount = csprToWad(repayMotes)` capped at `debtWad` is submitted to
the `repay` entrypoint (`some amount_wad`). -/
def handleRepay (repayMotes debtWad : Nat) : Option Nat :=
  if repayMotes = 0 then none
  else some (if csprToWad repayMotes > debtWad then debtWad
             else csprToWad repayMotes)

/-- handleDeposit in App.tsx lines 1782-1804, reduced to its data flow:
`amountMotes` is the parsed deposit amount; if it is below
MIN_DEPOSIT_MOTES the handler reports a minimum-deposit error and sends no
deploy (`none`); otherwise it sends a deposit deploy with exactly
`amountMotes` attached (`some amountMotes`). -/
def handleDeposit (amountMotes : Nat) : Option Nat :=
  if amountMotes < MIN_DEPOSIT_MOTES then none else some amountMotes

/-- Characters removed by ECMAScript `String.prototype.trim`: the WhiteSpace
production (TAB, VT, FF, SP, NBSP, ZWNBSP and every Space_Separator
code point: U+1680, U+2000-U+200A, U+202F, U+205F, U+3000) together with the
LineTerminator production (LF, CR, LS U+2028, PS U+2029). -/
def isJsWhitespace (c : Char) : Bool :=
  c = '\t' || c = '\n' || c = '\x0b' || c = '\x0c' || c = '\r' || c = ' ' ||
  c = '\u00A0' || c = '\u1680' || ('\u2000' ≤ c && c ≤ '\u200A') ||
  c = '\u2028' || c = '\u2029' || c = '\u202F' || c = '\u205F' ||
  c = '\u3000' || c = '\uFEFF'

/-- ECMAScript `input.trim()` on a string given as a character list. -/
def jsTrim (s : List Char) : List Char :=
  ((s.dropWhile isJsWhitespace).reverse.dropWhile isJsWhitespace).reverse

/-- The character class `\d` of DECIMAL_INPUT_REGEX: exactly the ASCII
digits 0-9. -/
def isDigitChar (c : Char) : Bool :=
  c = '0' || c = '1' || c = '2' || c = '3' || c = '4' ||
  c = '5' || c = '6' || c = '7' || c = '8' || c = '9'

/-- DECIMAL_INPUT_REGEX in amounts.ts line 7, the anchored regular expression
`\d*(?:\.\d*)?`: a maximal digit prefix followed either by the end of the
string or by a dot and only digits. -/
def matchesDecimalInputRegex (s : List Char) : Bool :=
  match s.dropWhile isDigitChar with
  | [] => true
  | c :: rest => c = '.' && rest.all isDigitChar

/-- Numeric value of a digit character, as used by ECMAScript `BigInt` on a
digit string. -/
def digitVal (c : Char) : Nat := c.toNat - '0'.toNat

/-- ECMAScript `BigInt(str)` on a string of decimal digits. -/
def digitsToNat (s : List Char) : Nat :=
  s.foldl (fun acc c => acc * 10 + digitVal c) 0

/-- ECMAScript `str.split('.')` on a string given as a character list. -/
def splitOnDot : List Char → List (List Char)
  | [] => [[]]
  | c :: rest =>
    if c = '.' then [] :: splitOnDot rest
    else
      match splitOnDot rest with
      | [] => [[c]]
      | p :: ps => (c :: p) :: ps

/-- parseCSPR in amounts.ts lines 35-47. The guarded input has at most one
dot, so `parts[0]` and `parts[1]` of `split('.')` carry all of it; the
`if (fracPart)` in the source is always true there (padEnd to width 9 of a
non-empty string) and is dropped. -/
def parseCSPR (input : List Char) : Nat :=
  let normalized := jsTrim input
  if normalized = [] then 0
  else if matchesDecimalInputRegex normalized = false then 0
  else
    let parts := splitOnDot normalized
    let p0 := parts.headD []
    let whole := if p0 = [] then 0 else digitsToNat p0
    let frac :=
      match parts.drop 1 with
      | [] => 0
      | p1 :: _ =>
        if p1 = [] then 0
        else digitsToNat ((p1.take 9) ++ List.replicate (9 - (p1.take 9).length) '0')
    whole * 10 ^ 9 + frac

/-- Characters kept by the `replace(/[^\d.]/g, '')` step of
normalizeDecimalInput. -/
def isDecimalChar (c : Char) : Bool := isDigitChar c || c = '.'

/-- The `firstDot` surgery of normalizeDecimalInput, amounts.ts lines 13-16:
everything up to and including the first dot is kept, and every later dot is
removed. -/
def dropExtraDots : List Char → List Char
  | [] => []
  | c :: rest =>
    if c = '.' then c :: rest.filter (fun d => !(d = '.'))
    else c :: dropExtraDots rest

/-- normalizeDecimalInput in amounts.ts lines 9-19. -/
def normalizeDecimalInput (input : List Char) : List Char :=
  let trimmed := jsTrim input
  if trimmed = [] then []
  else
    let cleaned := dropExtraDots (trimmed.filter isDecimalChar)
    if cleaned.head? = some ('.' : Char) then '0' :: cleaned else cleaned

-- sanity checks against the vitest test-suite values
example : parseCSPR ['1'] = 10 ^ 9 := by decide
example : parseCSPR ['0', '.', '5'] = 500000000 := by decide
example : parseCSPR ['1', '.', '0', '0', '0', '0', '0', '0', '0', '0', '1'] = 1000000001 := by decide
example : parseCSPR ['1', '.', '0', '0', '0', '0', '0', '0', '0', '0', '1', '2'] = 1000000001 := by decide
example : parseCSPR [] = 0 := by decide
example : parseCSPR ['1', 'a'] = 0 := by decide
example : parseCSPR [' ', '1', ' '] = 1000000000 := by decide
example : matchesDecimalInputRegex [' ', '1', ' '] = false := by decide
example : matchesDecimalInputRegex ['1', '.', '2', '.', '3'] = false := by decide
example : normalizeDecimalInput ['1', '.', '.', '2'] = ['1', '.', '2'] := by decide
example : normalizeDecimalInput ['1', '.', '2', '.', '3'] = ['1', '.', '2', '3'] := by decide
example : normalizeDecimalInput ['a', 'b', '1', '2', '.', '3', 'c', 'd'] = ['1', '2', '.', '3'] := by decide
example : normalizeDecimalInput ['.', '5'] = ['0', '.', '5'] := by decide
example : normalizeDecimalInput [' ', ' ', '1', '2', '.', '3', '4', ' ', ' '] = ['1', '2', '.', '3', '4'] := by decide
example : normalizeDecimalInput [] = [] := by decide
example : normalizeDecimalInput ['.'] = ['0', '.'] := by decide
example : parseCSPR ['\u2000', '1'] = 10 ^ 9 := by decide
example : parseCSPR ['\u3000', '2', '\u2028'] = 2000000000 := by decide
example : jsTrim ['\u1680', '7', '\u205F'] = ['7'] := by decide

/-- C5: for every motes value `m`, converting motes to wad and back is the
identity: `wadToMotes (csprToWad m) = m`. -/
theorem wad_motes_roundtrip (m : Nat) : wadToMotes (csprToWad m) = m := by
  unfold wadToMotes csprToWad MOTES_TO_WAD
  omega

/-- C6: for every wad value `w`, `wadToMotes w` is `w` divided by 10^9
truncated toward zero: `wadToMotes w * 10^9 ≤ w < wadToMotes w * 10^9 + 10^9`. -/
theorem wadToMotes_truncates (w : Nat) :
    wadToMotes w * 10 ^ 9 ≤ w ∧ w < wadToMotes w * 10 ^ 9 + 10 ^ 9 := by
  unfold wadToMotes MOTES_TO_WAD
  omega

/-- C4: the maximum borrowable amount is `motes_to_wad(c) * LTV_MAX_BPS /
BPS_DIVISOR` with truncating division (characterised by the two bounds), and
the available-to-borrow amount is the maximum minus the current debt floored
at zero (characterised as `available + min debt max = max`, which forces
`available = max - debt` when `debt ≤ max` and `available = 0` otherwise). -/
theorem maxBorrow_truncated_and_available_floored (c d : Nat) :
    maxBorrowWad c * BPS_DIVISOR ≤ csprToWad c * LTV_MAX_BPS ∧
    csprToWad c * LTV_MAX_BPS < maxBorrowWad c * BPS_DIVISOR + BPS_DIVISOR ∧
    availableToBorrow c d + min d (maxBorrowWad c) = maxBorrowWad c := by
  unfold availableToBorrow maxBorrowWad collateralWad csprToWad
    LTV_MAX_BPS BPS_DIVISOR MOTES_TO_WAD
  split
  · omega
  · omega

/-- C7 (amended): the frontend `csprToWad` is the exact product
`m * MOTES_TO_WAD` for every input with no overflow failure; within the U256
range it agrees with the spec's `motes_to_wad`. -/
theorem csprToWad_agrees_with_spec_in_range (m : Nat)
    (h : m * MOTES_TO_WAD ≤ U256_MAX) :
    csprToWad m = m * MOTES_TO_WAD ∧ specMotesToWad m = some (csprToWad m) := by
  refine ⟨rfl, ?_⟩
  unfold specMotesToWad csprToWad
  rw [if_pos h]

/-- Witness for C7 (amended) at `m = 1`. -/
theorem csprToWad_agrees_with_spec_in_range_witness :
    csprToWad 1 = 1 * MOTES_TO_WAD ∧ specMotesToWad 1 = some (csprToWad 1) :=
  csprToWad_agrees_with_spec_in_range 1 (by decide)

/-- C7 counterexample: at `m = 2^256` the product exceeds U256_MAX, yet the
frontend `csprToWad` does not fail with Overflow — it returns the exact
product (ECMAScript bigints are arbitrary-precision), diverging from the
spec-modelled `motes_to_wad`. -/
theorem csprToWad_no_overflow_check :
    csprToWad (2 ^ 256) = 2 ^ 256 * MOTES_TO_WAD ∧
    2 ^ 256 * MOTES_TO_WAD > U256_MAX ∧
    specMotesToWad (2 ^ 256) = none := by
  refine ⟨rfl, by decide, ?_⟩
  unfold specMotesToWad
  rw [if_neg (by decide)]

/-- C1: for every position with positive debt (positions satisfy the spec's
LTV invariant I1, `debt_wad * BPS_DIVISOR ≤ motes_to_wad(collateral) *
LTV_MAX_BPS`), withdrawing the computed `maxWithdrawMotes` leaves the
position at or below the LTV cap. -/
theorem maxWithdraw_keeps_ltv (c d : Nat) (hd : 0 < d)
    (hinv : d * BPS_DIVISOR ≤ csprToWad c * LTV_MAX_BPS) :
    d * BPS_DIVISOR ≤ (c - maxWithdrawMotes c d) * 10 ^ 9 * LTV_MAX_BPS := by
  unfold maxWithdrawMotes maxWithdrawWad minCollateralWad wadToMotes
    collateralWad csprToWad LTV_MAX_BPS BPS_DIVISOR MOTES_TO_WAD at *
  rw [if_pos hd] at *
  split
  · omega
  · omega

/-- Witness for C1 at collateral 2 motes, debt 800000000 wad (a boundary
case where the retained collateral meets the cap with equality). -/
theorem maxWithdraw_keeps_ltv_witness :
    0 < 800000000 ∧
    800000000 * BPS_DIVISOR ≤ csprToWad 2 * LTV_MAX_BPS ∧
    800000000 * BPS_DIVISOR ≤ (2 - maxWithdrawMotes 2 800000000) * 10 ^ 9 * LTV_MAX_BPS :=
  ⟨by decide, by decide, maxWithdraw_keeps_ltv 2 800000000 (by decide) (by decide)⟩

/-- C2 counterexample: at `debt_wad = 1` the frontend computes
`minCollateralWad 1 = 1` (truncating division) while the spec's
`ceil(1 * 10000 / 8000) = 2`: the claim that the code equals the ceiling is
false. -/
theorem minCollateralWad_is_not_ceil :
    minCollateralWad 1 = 1 ∧ specMinCollateralWad 1 = 2 ∧ (1 : Nat) ≠ 2 := by
  refine ⟨?_, ?_, by decide⟩
  · unfold minCollateralWad BPS_DIVISOR LTV_MAX_BPS
    decide
  · unfold specMinCollateralWad BPS_DIVISOR LTV_MAX_BPS
    decide

/-- C2 (amended): for positive debt the frontend's minimum retained
collateral is the TRUNCATING division `debt_wad * BPS_DIVISOR / LTV_MAX_BPS`
in wad, and the subsequent conversion of the withdrawable remainder to motes
amounts to ceiling division of that retained minimum by 10^9 (rounding the
retained collateral up, the protocol-favorable direction): whenever any
wad is withdrawable, the collateral retained after withdrawing
`maxWithdrawMotes` is exactly `ceil(minCollateralWad / MOTES_TO_WAD)` motes. -/
theorem minCollateral_truncates_then_motes_ceils (c d : Nat) (hd : 0 < d)
    (h : minCollateralWad d < csprToWad c) :
    minCollateralWad d = d * BPS_DIVISOR / LTV_MAX_BPS ∧
    c - maxWithdrawMotes c d
      = (minCollateralWad d + (MOTES_TO_WAD - 1)) / MOTES_TO_WAD := by
  unfold minCollateralWad at *
  rw [if_pos hd] at *
  refine ⟨rfl, ?_⟩
  unfold maxWithdrawMotes maxWithdrawWad minCollateralWad wadToMotes
    collateralWad csprToWad LTV_MAX_BPS BPS_DIVISOR MOTES_TO_WAD at *
  rw [if_pos hd]
  split
  · omega
  · omega

/-- Witness for C2 (amended) at collateral 1 mote, debt 1 wad. -/
theorem minCollateral_truncates_then_motes_ceils_witness :
    0 < 1 ∧ minCollateralWad 1 < csprToWad 1 ∧
    (minCollateralWad 1 = 1 * BPS_DIVISOR / LTV_MAX_BPS ∧
     1 - maxWithdrawMotes 1 1
       = (minCollateralWad 1 + (MOTES_TO_WAD - 1)) / MOTES_TO_WAD) :=
  ⟨by decide, by decide, minCollateral_truncates_then_motes_ceils 1 1 (by decide) (by decide)⟩

/-- C3: for every repay request that parses to a positive amount of motes
(hence a positive wad amount `r = csprToWad repayMotes`) and every positive
current debt `d`, the handler invokes the repay entrypoint with
`amount_wad = min r d`; in particular a request converting to exactly `2 * d`
wad submits exactly `d`. -/
theorem handleRepay_caps_at_debt (m d : Nat) (hm : 0 < m) (hd : 0 < d) :
    handleRepay m d = some (min (csprToWad m) d) ∧
    (csprToWad m = 2 * d → handleRepay m d = some d) := by
  unfold handleRepay csprToWad MOTES_TO_WAD
  rw [if_neg (by omega)]
  constructor
  · split
    · simp only [Option.some.injEq]
      omega
    · simp only [Option.some.injEq]
      omega
  · intro h2
    split
    · rfl
    · simp only [Option.some.injEq]
      omega

/-- Witness for C3 at a parsed amount of 1 mote against a debt of
500000000 wad: the request converts to 10^9 = 2 * 500000000 wad and the
handler submits exactly the debt. -/
theorem handleRepay_caps_at_debt_witness :
    handleRepay 1 500000000 = some (min (csprToWad 1) 500000000) ∧
    (csprToWad 1 = 2 * 500000000 → handleRepay 1 500000000 = some 500000000) :=
  handleRepay_caps_at_debt 1 500000000 (by decide) (by decide)

/-- C8: a deposit input parsing below MIN_DEPOSIT_MOTES = 500 * 10^9 motes is
rejected by the handler with no deploy sent, and one at or above it is
submitted with exactly the parsed motes attached. -/
theorem handleDeposit_enforces_minimum (m : Nat) :
    (m < MIN_DEPOSIT_MOTES → handleDeposit m = none) ∧
    (MIN_DEPOSIT_MOTES ≤ m → handleDeposit m = some m) ∧
    MIN_DEPOSIT_MOTES = 500 * 10 ^ 9 := by
  refine ⟨?_, ?_, by decide⟩
  · intro h
    unfold handleDeposit
    rw [if_pos h]
  · intro h
    unfold handleDeposit
    rw [if_neg (by omega)]

/-- Witness for C8 on both sides of the 500 CSPR boundary. -/
theorem handleDeposit_enforces_minimum_witness :
    handleDeposit 499999999999 = none ∧ handleDeposit 500000000000 = some 500000000000 :=
  ⟨(handleDeposit_enforces_minimum 499999999999).1 (by decide),
   (handleDeposit_enforces_minimum 500000000000).2.1 (by decide)⟩

/-- dropWhile is the identity on a list none of whose elements satisfy the
predicate. -/
theorem dropWhile_eq_self_of_none {p : Char → Bool} :
    ∀ l : List Char, (∀ c ∈ l, p c = false) → l.dropWhile p = l := by
  intro l h
  induction l with
  | nil => rfl
  | cons c t ih =>
    simp only [List.dropWhile_cons, h c (by simp), Bool.false_eq_true, if_false]

/-- jsTrim is the identity on a list with no ECMAScript whitespace. -/
theorem jsTrim_eq_self (l : List Char) (h : ∀ c ∈ l, isJsWhitespace c = false) :
    jsTrim l = l := by
  unfold jsTrim
  rw [dropWhile_eq_self_of_none l h,
      dropWhile_eq_self_of_none l.reverse (by intro c hc; exact h c (List.mem_reverse.mp hc)),
      List.reverse_reverse]

/-- A decimal digit is not ECMAScript whitespace. -/
theorem isDigitChar_not_ws (c : Char) (h : isDigitChar c = true) :
    isJsWhitespace c = false := by
  unfold isDigitChar at h
  simp only [Bool.or_eq_true, decide_eq_true_eq] at h
  rcases h with ((((((((h | h) | h) | h) | h) | h) | h) | h) | h) | h <;>
    subst h <;> decide

/-- A decimal digit is not the dot. -/
theorem isDigitChar_ne_dot (c : Char) (h : isDigitChar c = true) : c ≠ '.' := by
  unfold isDigitChar at h
  simp only [Bool.or_eq_true, decide_eq_true_eq] at h
  rcases h with ((((((((h | h) | h) | h) | h) | h) | h) | h) | h) | h <;>
    subst h <;> decide

/-- A kept character of normalizeDecimalInput is not whitespace. -/
theorem isDecimalChar_not_ws (c : Char) (h : isDecimalChar c = true) :
    isJsWhitespace c = false := by
  unfold isDecimalChar at h
  simp only [Bool.or_eq_true, decide_eq_true_eq] at h
  rcases h with h | h
  · exact isDigitChar_not_ws c h
  · subst h; decide

/-- Folding the digit accumulator from an arbitrary seed. -/
theorem foldl_digits_seed (l : List Char) :
    ∀ z : Nat, l.foldl (fun acc c => acc * 10 + digitVal c) z
      = z * 10 ^ l.length + digitsToNat l := by
  induction l with
  | nil => intro z; simp [digitsToNat]
  | cons c t ih =>
    intro z
    simp only [List.foldl_cons, List.length_cons, digitsToNat]
    rw [ih (z * 10 + digitVal c), ih (0 * 10 + digitVal c)]
    ring

/-- digitsToNat over an append. -/
theorem digitsToNat_append (a b : List Char) :
    digitsToNat (a ++ b) = digitsToNat a * 10 ^ b.length + digitsToNat b := by
  unfold digitsToNat
  rw [List.foldl_append]
  exact foldl_digits_seed b _

/-- Trailing zeros multiply the value by the matching power of ten. -/
theorem digitsToNat_pad_zeros (t : List Char) (k : Nat) :
    digitsToNat (t ++ List.replicate k '0') = digitsToNat t * 10 ^ k := by
  rw [digitsToNat_append, List.length_replicate]
  have hz : digitsToNat (List.replicate k '0') = 0 := by
    induction k with
    | zero => rfl
    | succ n ih =>
      simp only [List.replicate_succ, digitsToNat, List.foldl_cons] at *
      simpa [digitVal] using ih
  omega

/-- splitOnDot of a dot-free list. -/
theorem splitOnDot_no_dot :
    ∀ l : List Char, (∀ c ∈ l, c ≠ '.') → splitOnDot l = [l] := by
  intro l h
  induction l with
  | nil => rfl
  | cons c t ih =>
    simp only [splitOnDot, if_neg (h c (by simp)),
      ih (fun d hd => h d (by simp [hd]))]

/-- splitOnDot around a single dot separating two dot-free lists. -/
theorem splitOnDot_single (w f : List Char) (hw : ∀ c ∈ w, c ≠ '.')
    (hf : ∀ c ∈ f, c ≠ '.') : splitOnDot (w ++ '.' :: f) = [w, f] := by
  induction w with
  | nil => simp [splitOnDot, splitOnDot_no_dot f hf]
  | cons c t ih =>
    have hc : c ≠ '.' := hw c (by simp)
    have ht := ih (fun d hd => hw d (by simp [hd]))
    show splitOnDot (c :: (t ++ '.' :: f)) = [c :: t, f]
    unfold splitOnDot
    rw [if_neg hc, ht]

/-- dropWhile past an all-true block. -/
theorem dropWhile_append_block {p : Char → Bool} :
    ∀ w r : List Char, (∀ c ∈ w, p c = true) →
      (w ++ r).dropWhile p = r.dropWhile p := by
  intro w r h
  induction w with
  | nil => rfl
  | cons c t ih =>
    simp only [List.cons_append, List.dropWhile_cons, h c (by simp), if_true]
    exact ih (fun d hd => h d (by simp [hd]))

/-- A leading digit does not change regex acceptance. -/
theorem matches_cons_digit (c : Char) (l : List Char) (h : isDigitChar c = true) :
    matchesDecimalInputRegex (c :: l) = matchesDecimalInputRegex l := by
  unfold matchesDecimalInputRegex
  rw [List.dropWhile_cons, if_pos h]

/-- digits-dot-digits inputs are accepted by the regex. -/
theorem matches_digits_dot_digits (w f : List Char)
    (hw : ∀ c ∈ w, isDigitChar c = true) (hf : ∀ c ∈ f, isDigitChar c = true) :
    matchesDecimalInputRegex (w ++ '.' :: f) = true := by
  unfold matchesDecimalInputRegex
  rw [dropWhile_append_block w ('.' :: f) hw, List.dropWhile_cons,
    if_neg (by decide)]
  show (decide ('.' = '.') && f.all isDigitChar) = true
  rw [List.all_eq_true.mpr hf]
  decide

/-- all-digit inputs are accepted by the regex. -/
theorem matches_digits (w : List Char) (hw : ∀ c ∈ w, isDigitChar c = true) :
    matchesDecimalInputRegex w = true := by
  unfold matchesDecimalInputRegex
  have hdrop : w.dropWhile isDigitChar = [] := by
    have := dropWhile_append_block w [] hw
    simpa using this
  rw [hdrop]

/-- C9 (amended): parseCSPR is total and returns 0 whenever the TRIMMED
input fails DECIMAL_INPUT_REGEX; on digits-dot-digits input it returns the
whole part times 10^9 plus the first nine fractional digits right-padded
with zeros, and on all-digit input the whole part times 10^9. -/
theorem parseCSPR_spec (s w f : List Char)
    (hw : ∀ c ∈ w, isDigitChar c = true) (hf : ∀ c ∈ f, isDigitChar c = true) :
    (matchesDecimalInputRegex (jsTrim s) = false → parseCSPR s = 0) ∧
    parseCSPR (w ++ '.' :: f)
      = digitsToNat w * 10 ^ 9 + digitsToNat (f.take 9) * 10 ^ (9 - min f.length 9) ∧
    parseCSPR w = digitsToNat w * 10 ^ 9 := by
  refine ⟨?_, ?_, ?_⟩
  · intro h
    unfold parseCSPR
    by_cases h0 : jsTrim s = []
    · simp [h0]
    · simp [h0, h]
  · have hwsall : ∀ c ∈ w ++ '.' :: f, isJsWhitespace c = false := by
      intro c hc
      rcases List.mem_append.mp hc with hcw | hcf
      · exact isDigitChar_not_ws c (hw c hcw)
      · rcases List.mem_cons.mp hcf with rfl | hcf2
        · decide
        · exact isDigitChar_not_ws c (hf c hcf2)
    have htrim := jsTrim_eq_self _ hwsall
    have hne : w ++ '.' :: f ≠ [] := by simp
    have hm := matches_digits_dot_digits w f hw hf
    have hsplit := splitOnDot_single w f
      (fun c hc => isDigitChar_ne_dot c (hw c hc))
      (fun c hc => isDigitChar_ne_dot c (hf c hc))
    simp only [parseCSPR, htrim, hm, hsplit, if_neg hne, Bool.true_eq_false,
      if_false, List.headD_cons, List.drop_succ_cons, List.drop_zero]
    by_cases hw0 : w = []
    · by_cases hf0 : f = []
      · subst hw0; subst hf0
        simp [digitsToNat]
      · subst hw0
        rw [if_pos rfl, if_neg hf0, digitsToNat_pad_zeros (f.take 9) _,
          List.length_take, Nat.min_comm]
        simp [digitsToNat]
    · by_cases hf0 : f = []
      · subst hf0
        rw [if_neg hw0, if_pos rfl]
        simp [digitsToNat]
      · rw [if_neg hw0, if_neg hf0, digitsToNat_pad_zeros (f.take 9) _,
          List.length_take, Nat.min_comm]
  · have hwsall : ∀ c ∈ w, isJsWhitespace c = false :=
      fun c hc => isDigitChar_not_ws c (hw c hc)
    have htrim := jsTrim_eq_self _ hwsall
    have hm := matches_digits w hw
    have hsplit := splitOnDot_no_dot w (fun c hc => isDigitChar_ne_dot c (hw c hc))
    by_cases hw0 : w = []
    · subst hw0
      simp [parseCSPR, jsTrim, digitsToNat]
    · simp only [parseCSPR, htrim, hm, hsplit, if_neg hw0, Bool.true_eq_false,
        if_false, List.headD_cons, List.drop_succ_cons, List.drop_zero,
        List.drop_nil]
      omega

/-- Unfolding equation of dropExtraDots at a leading dot. -/
theorem dropExtraDots_cons_dot (t : List Char) :
    dropExtraDots ('.' :: t) = '.' :: t.filter (fun d => !(d = '.')) := by
  unfold dropExtraDots
  rw [if_pos rfl]

/-- Unfolding equation of dropExtraDots at a leading non-dot. -/
theorem dropExtraDots_cons_ne (c : Char) (t : List Char) (h : c ≠ '.') :
    dropExtraDots (c :: t) = c :: dropExtraDots t := by
  conv_lhs => unfold dropExtraDots
  rw [if_neg h]

/-- dropExtraDots only keeps characters of its input. -/
theorem mem_dropExtraDots {c : Char} :
    ∀ {l : List Char}, c ∈ dropExtraDots l → c ∈ l := by
  intro l
  induction l with
  | nil => intro h; simp [dropExtraDots] at h
  | cons d t ih =>
    intro h
    by_cases hd : d = '.'
    · subst hd
      rw [dropExtraDots_cons_dot] at h
      rcases List.mem_cons.mp h with rfl | h2
      · exact List.mem_cons_self _ _
      · exact List.mem_cons_of_mem _ (List.mem_of_mem_filter h2)
    · rw [dropExtraDots_cons_ne d t hd] at h
      rcases List.mem_cons.mp h with rfl | h2
      · exact List.mem_cons_self _ _
      · exact List.mem_cons_of_mem _ (ih h2)

/-- dropExtraDots is idempotent. -/
theorem dropExtraDots_idem : ∀ l : List Char,
    dropExtraDots (dropExtraDots l) = dropExtraDots l := by
  intro l
  induction l with
  | nil => rfl
  | cons d t ih =>
    by_cases hd : d = '.'
    · subst hd
      rw [dropExtraDots_cons_dot, dropExtraDots_cons_dot]
      congr 1
      refine List.filter_eq_self.mpr ?_
      intro a ha
      exact (List.mem_filter.mp ha).2
    · rw [dropExtraDots_cons_ne d t hd, dropExtraDots_cons_ne d _ hd, ih]

/-- After dropExtraDots, a digit-or-dot list is accepted by the regex. -/
theorem matches_dropExtraDots : ∀ l : List Char,
    (∀ c ∈ l, isDecimalChar c = true) →
    matchesDecimalInputRegex (dropExtraDots l) = true := by
  intro l h
  induction l with
  | nil => decide
  | cons d t ih =>
    by_cases hd : d = '.'
    · subst hd
      rw [dropExtraDots_cons_dot]
      unfold matchesDecimalInputRegex
      rw [List.dropWhile_cons, if_neg (by decide)]
      show (decide ('.' = '.') && (t.filter (fun d => !(d = '.'))).all isDigitChar) = true
      have hall : ∀ a ∈ t.filter (fun d => !(d = '.')), isDigitChar a = true := by
        intro a ha
        have hm := List.mem_filter.mp ha
        have hdec := h a (List.mem_cons_of_mem _ hm.1)
        have hnd : a ≠ '.' := by simpa using hm.2
        unfold isDecimalChar at hdec
        simp only [Bool.or_eq_true, decide_eq_true_eq] at hdec
        rcases hdec with h1 | h1
        · exact h1
        · exact absurd h1 hnd
      rw [List.all_eq_true.mpr hall]
      decide
    · have hdec := h d (List.mem_cons_self _ _)
      have hdig : isDigitChar d = true := by
        unfold isDecimalChar at hdec
        simp only [Bool.or_eq_true, decide_eq_true_eq] at hdec
        rcases hdec with h1 | h1
        · exact h1
        · exact absurd h1 hd
      rw [dropExtraDots_cons_ne d t hd, matches_cons_digit d _ hdig]
      exact ih (fun c hc => h c (List.mem_cons_of_mem _ hc))

/-- normalizeDecimalInput is the identity on an already-normalized list. -/
theorem normalize_fixed (r : List Char)
    (hchar : ∀ c ∈ r, isDecimalChar c = true)
    (hdrop : dropExtraDots r = r) (hhead : r.head? ≠ some '.') :
    normalizeDecimalInput r = r := by
  have hws : ∀ c ∈ r, isJsWhitespace c = false :=
    fun c hc => isDecimalChar_not_ws c (hchar c hc)
  have htrim : jsTrim r = r := jsTrim_eq_self r hws
  by_cases hr : r = []
  · subst hr; decide
  · have hfil : r.filter isDecimalChar = r := List.filter_eq_self.mpr hchar
    simp only [normalizeDecimalInput, htrim, if_neg hr, hfil, hdrop, if_neg hhead]

/-- C10: the result of normalizeDecimalInput always satisfies
DECIMAL_INPUT_REGEX, never starts with a dot, and normalizeDecimalInput is
idempotent. -/
theorem normalizeDecimalInput_spec (s : List Char) :
    matchesDecimalInputRegex (normalizeDecimalInput s) = true ∧
    (normalizeDecimalInput s).head? ≠ some '.' ∧
    normalizeDecimalInput (normalizeDecimalInput s) = normalizeDecimalInput s := by
  by_cases h0 : jsTrim s = []
  · have hr : normalizeDecimalInput s = [] := by
      simp only [normalizeDecimalInput]
      rw [if_pos h0]
    rw [hr]
    refine ⟨by decide, by decide, by decide⟩
  · have hXmem : ∀ c ∈ (jsTrim s).filter isDecimalChar, isDecimalChar c = true :=
      fun c hc => (List.mem_filter.mp hc).2
    have hCmem : ∀ c ∈ dropExtraDots ((jsTrim s).filter isDecimalChar),
        isDecimalChar c = true :=
      fun c hc => hXmem c (mem_dropExtraDots hc)
    have hCm := matches_dropExtraDots _ hXmem
    have hCidem := dropExtraDots_idem ((jsTrim s).filter isDecimalChar)
    by_cases hh : (dropExtraDots ((jsTrim s).filter isDecimalChar)).head? = some '.'
    · have hr : normalizeDecimalInput s
          = '0' :: dropExtraDots ((jsTrim s).filter isDecimalChar) := by
        simp only [normalizeDecimalInput]
        rw [if_neg h0, if_pos hh]
      refine ⟨?_, ?_, ?_⟩
      · rw [hr, matches_cons_digit '0' _ (by decide)]
        exact hCm
      · rw [hr]
        simp only [List.head?_cons, ne_eq, Option.some.injEq]
        decide
      · rw [hr]
        refine normalize_fixed _ ?_ ?_ ?_
        · intro c hc
          rcases List.mem_cons.mp hc with rfl | hc2
          · decide
          · exact hCmem c hc2
        · rw [dropExtraDots_cons_ne _ _ (by decide), hCidem]
        · simp only [List.head?_cons, ne_eq, Option.some.injEq]
          decide
    · have hr : normalizeDecimalInput s
          = dropExtraDots ((jsTrim s).filter isDecimalChar) := by
        simp only [normalizeDecimalInput]
        rw [if_neg h0, if_neg hh]
      refine ⟨?_, ?_, ?_⟩
      · rw [hr]; exact hCm
      · rw [hr]; exact hh
      · rw [hr]
        exact normalize_fixed _ hCmem hCidem hh

/-- C9 counterexample: the input with a space on each side of the digit 1
does not match DECIMAL_INPUT_REGEX, yet parseCSPR returns 10^9 rather than 0,
because the code trims the input before testing the regex. -/
theorem parseCSPR_untrimmed_counterexample :
    matchesDecimalInputRegex [' ', '1', ' '] = false ∧
    parseCSPR [' ', '1', ' '] = 10 ^ 9 ∧ (10 ^ 9 : Nat) ≠ 0 := by
  refine ⟨by decide, by decide, by decide⟩

/-- Witness for C9 (amended) at the inputs 1a (rejected), 1.2 and 1. -/
theorem parseCSPR_spec_witness :
    (matchesDecimalInputRegex (jsTrim ['1', 'a']) = false → parseCSPR ['1', 'a'] = 0) ∧
    parseCSPR (['1'] ++ '.' :: ['2'])
      = digitsToNat ['1'] * 10 ^ 9
        + digitsToNat (['2'].take 9) * 10 ^ (9 - min (['2'].length) 9) ∧
    parseCSPR ['1'] = digitsToNat ['1'] * 10 ^ 9 :=
  parseCSPR_spec ['1', 'a'] ['1'] ['2'] (by decide) (by decide)
